import Mathlib

/-!
Shallow embedding of the AER scan-cache-aggregate engine
(`REVIEW-REPORT/cell3_v4.2.py`).

Spreadsheet cells are modelled by `Value` (a Python cell value as seen by
openpyxl: `None`, a string, an integer or a boolean); Python truthiness and
`str()` are `pyTruthy` and `pyStr`.  The extractor `read_excel_rows`, the
classifier `get_row_stats`, the cache-hit decision `is_hit`, the per-entity
scan step and the dashboard aggregation are translated definition by
definition from the source.
-/

/-- Python value stored in a spreadsheet cell (the subset relevant here). -/
inductive Value where
  | none
  | str (s : String)
  | int (n : Int)
  | bool (b : Bool)
deriving DecidableEq

/-- Python truthiness (`if v:`): `None`, `""`, `0` and `False` are falsy. -/
def pyTruthy : Value → Bool
  | .none => false
  | .str s => s ≠ ""
  | .int n => n ≠ 0
  | .bool b => b

/-- Python `str(v)` for the cell values modelled here. -/
def pyStr : Value → String
  | .none => "None"
  | .str s => s
  | .int n => toString n
  | .bool b => if b then "True" else "False"

/-- Python substring test `needle in hay`. -/
def strContains (hay needle : String) : Bool :=
  hay.toList.tails.any (fun t => needle.toList.isPrefixOf t)

/-- Python `s.lower()` (ASCII case folding). -/
def toLowerStr (s : String) : String := String.mk (s.data.map Char.toLower)

/-- Drops leading whitespace characters. -/
def dropWs : List Char → List Char
  | [] => []
  | c :: rest => if c.isWhitespace then dropWs rest else c :: rest

/-- Python `s.strip()`: removes leading and trailing whitespace. -/
def trimStr (s : String) : String :=
  String.mk (dropWs ((dropWs s.data.reverse).reverse))

/-- Auxiliary loop of `find_col_index`: `enumerate(headers)` from index `i`,
skipping falsy header cells, returning the first index whose lowered,
stripped text contains every keyword. -/
def findColAux (keywords : List String) : Nat → List Value → Option Nat
  | _, [] => Option.none
  | i, h :: rest =>
    if pyTruthy h then
      if keywords.all (fun k => strContains (toLowerStr (trimStr (pyStr h))) k) then some i
      else findColAux keywords (i + 1) rest
    else findColAux keywords (i + 1) rest

/-- Source `find_col_index(headers, keywords)`: case-insensitive search for a
column index whose header contains all keywords as substrings. -/
def find_col_index (headers : List Value) (keywords : List String) : Option Nat :=
  findColAux keywords 0 headers

/-- One extracted review row (the dict appended to `results` in
`read_excel_rows`). -/
structure ReviewRow where
  reviewer : String
  user_name : String
  user_email : String
  response : String
  details : String
  is_missing : Bool
  row_number : Nat
  file_name : String
  folder_url : String
deriving DecidableEq

/-- Builds the result dict for one kept data row (`read_excel_rows`, step 4):
falsy cells coerce to `""`, text is stripped, `is_missing` marks an empty
response. -/
def mkRow (reviewer_name file_name folder_url : String) (i : Nat)
    (r_res r_det r_user r_email : Value) : ReviewRow :=
  let val_res := if pyTruthy r_res then trimStr (pyStr r_res) else ""
  let val_det := if pyTruthy r_det then trimStr (pyStr r_det) else ""
  { reviewer := reviewer_name
    user_name := if pyTruthy r_user then trimStr (pyStr r_user) else ""
    user_email := if pyTruthy r_email then trimStr (pyStr r_email) else ""
    response := val_res
    details := val_det
    is_missing := val_res == ""
    row_number := i
    file_name := file_name
    folder_url := folder_url }

/-- The per-row filter of `read_excel_rows`: kept iff the stringified,
stripped, lowered reviewer cell equals the lowered target reviewer name. -/
def keepRow (idx_rev : Nat) (reviewer_name : String) (row : List Value) : Bool :=
  toLowerStr (trimStr (pyStr (row.getD idx_rev Value.none))) == toLowerStr reviewer_name

/-- Cell access `row[idx] if idx is not None and idx < len(row) else None`
for the optional column indexes. -/
def cellOpt (row : List Value) : Option Nat → Value
  | some j => row.getD j Value.none
  | _ => Value.none

/-- Row loop of `read_excel_rows` (step 4), `enumerate(rows_iter, start=2)`:
cells out of range read as `None`; rows failing the reviewer filter are
skipped. -/
def extractRows (idx_rev idx_res : Nat) (idx_det idx_user idx_email : Option Nat)
    (reviewer_name file_name folder_url : String) :
    Nat → List (List Value) → List ReviewRow
  | _, [] => []
  | i, row :: rest =>
    if keepRow idx_rev reviewer_name row then
      mkRow reviewer_name file_name folder_url i (row.getD idx_res Value.none)
          (cellOpt row idx_det) (cellOpt row idx_user) (cellOpt row idx_email) ::
        extractRows idx_rev idx_res idx_det idx_user idx_email
          reviewer_name file_name folder_url (i + 1) rest
    else
      extractRows idx_rev idx_res idx_det idx_user idx_email
        reviewer_name file_name folder_url (i + 1) rest

/-- An in-memory workbook: sheets in order, each a name with its rows
(openpyxl guarantees at least one sheet; an empty list is degenerate). -/
structure Workbook where
  sheets : List (String × List (List Value))
deriving DecidableEq

/-- Smart tab selection (`read_excel_rows`, step 1): the first sheet whose
lowered name contains `"user listing"`, else the first sheet. -/
def selectSheetPair (wb : Workbook) : Option (String × List (List Value)) :=
  match wb.sheets with
  | [] => Option.none
  | first :: _ =>
    some ((wb.sheets.find? (fun p => strContains (toLowerStr p.1) "user listing")).getD first)

/-- Rows of the selected sheet. -/
def selectSheet (wb : Workbook) : List (List Value) :=
  match selectSheetPair wb with
  | some p => p.2
  | _ => []

/-- Reviewer-column resolution with the `"manager"` fallback
(`read_excel_rows`, validation block). -/
def resolveRevIdx (header : List Value) : Option Nat :=
  match find_col_index header ["reviewer"] with
  | some i => some i
  | _ => find_col_index header ["manager"]

/-- Subject-name column with its two fallbacks. -/
def resolveUserIdx (header : List Value) : Option Nat :=
  match find_col_index header ["user", "name"] with
  | some i => some i
  | _ =>
    match find_col_index header ["display", "name"] with
    | some i => some i
    | _ => find_col_index header ["full", "name"]

/-- Subject-email column with its fallback. -/
def resolveEmailIdx (header : List Value) : Option Nat :=
  match find_col_index header ["email"] with
  | some i => some i
  | _ => find_col_index header ["mail"]

/-- Column mapping and validation of `read_excel_rows` (steps 3 and 4): with
no reviewer column (after the manager fallback) or no response column the
extraction fails closed with `[]`; otherwise the data rows are scanned. -/
def extractHeader (header : List Value) (dataRows : List (List Value))
    (reviewer_name file_name folder_url : String) : List ReviewRow :=
  match resolveRevIdx header, find_col_index header ["response"] with
  | some ir, some ires =>
    extractRows ir ires (find_col_index header ["details", "change"])
      (resolveUserIdx header) (resolveEmailIdx header)
      reviewer_name file_name folder_url 2 dataRows
  | _, _ => []

/-- Source `read_excel_rows(excel_bytes, reviewer_name, file_name, folder_url)`:
select sheet, read the header row, then map columns and filter data rows via
`extractHeader`. -/
def read_excel_rows (wb : Workbook) (reviewer_name file_name folder_url : String) :
    List ReviewRow :=
  match selectSheet wb with
  | [] => []
  | header :: dataRows => extractHeader header dataRows reviewer_name file_name folder_url

/-- Outcome flags for one response text (`get_row_stats` returns 0/1 ints). -/
structure RowStats where
  is_appr : Nat
  is_deny : Nat
  is_chg : Nat
deriving DecidableEq

/-- Approval keywords of `get_row_stats`. -/
def kw_appr : List String := ["approv", "retain", "keep", "confirm", "yes", "ok", "active"]

/-- Denial keywords of `get_row_stats`. -/
def kw_deny : List String := ["denied", "deny", "remove", "delete", "revok", "reject", "no"]

/-- Change keywords of `get_row_stats`. -/
def kw_chg : List String := ["change", "modif", "updat", "correct", "edit", "adjust"]

/-- Source `get_row_stats(txt)`: lower, strip, then independent keyword
membership in the three lists. -/
def get_row_stats (txt : String) : RowStats :=
  let t := trimStr (toLowerStr txt)
  { is_appr := if kw_appr.any (fun k => strContains t k) then 1 else 0
    is_deny := if kw_deny.any (fun k => strContains t k) then 1 else 0
    is_chg := if kw_chg.any (fun k => strContains t k) then 1 else 0 }

/-- Engine schema version `CACHE_VERSION = 4.2`, the rational 21/5 (the float
literal 4.2 round-trips exactly through JSON and is only ever compared for
equality, so a rational is a faithful model). -/
def CACHE_VERSION : ℚ := ⟨21, 5, by decide, by decide⟩

/-- Precomputed aggregate counts stored in a cache entry (`stats` key). -/
structure CStats where
  Appr : Nat
  Deny : Nat
  Chg : Nat
deriving DecidableEq

/-- Audit snapshot returned by `get_file_audit_info` and cached verbatim. -/
structure Audit where
  created_ts : Option String
  log : Option String
  creator : Option String
  modifier : Option String
deriving DecidableEq

/-- One persisted cache record (the JSON object stored under a cache key).
`v` and `rows` are optional because a hand-edited or stale JSON file may lack
them; entries written by this engine always carry every field. -/
structure CacheEntry where
  v : Option ℚ
  last_mod : Option String
  stats : CStats
  audit : Audit
  rows : Option (List ReviewRow)
deriving DecidableEq

/-- The in-memory cache: key `"category|app|reviewer"` to entry. -/
def CacheMap : Type := String → Option CacheEntry

/-- Cache with no entries. -/
def emptyCacheMap : CacheMap := fun _ => Option.none

/-- Functional update of one cache key (`local_cache[cache_key] = ...`). -/
def updateCache (m : CacheMap) (k : String) (e : CacheEntry) : CacheMap :=
  fun k2 => if k2 = k then some e else m k2

/-- The persisted cache file as found on disk at process start. -/
inductive BackingFile where
  | absent
  | unreadable
  | malformed
  | wellFormed (m : CacheMap)

/-- Source `load_json(file_path)`: a missing file, an unreadable file or a
JSON parse failure all yield `{}`; only a well-formed file yields its
contents. -/
def load_json : BackingFile → CacheMap
  | .wellFormed m => m
  | _ => emptyCacheMap

/-- Cache-freshness decision of the scan loop (PART 3, step 2): hit iff the
cache is in use, an entry exists, its version and last-modified fingerprint
match, and its stored row list is present and non-empty. -/
def is_hit (useCache : Bool) (cached : Option CacheEntry) (remote_mod : Option String) : Bool :=
  useCache &&
    (match cached with
     | some c =>
       (c.v == some CACHE_VERSION) && (c.last_mod == remote_mod) &&
         (match c.rows with
          | some rs => rs.length > 0
          | _ => false)
     | _ => false)

/-- Remote file metadata returned by `list_excel_files`. -/
structure FileMeta where
  id : String
  name : String
  lastModifiedDateTime : Option String
  createdDateTime : Option String
deriving DecidableEq

/-- Target-file choice (PART 3, step 1): first file whose name contains the
reviewer name (case-insensitive), else the first listed file, else none. -/
def target_of (reviewer_name : String) (files : List FileMeta) : Option FileMeta :=
  match files.filter (fun f => strContains (toLowerStr f.name) (toLowerStr reviewer_name)) with
  | t :: _ => some t
  | [] => files.head?

/-- Python `a or b` on optional strings: a present non-empty string wins,
otherwise the fallback (used for `final_created`). -/
def pyOr (a b : Option String) : Option String :=
  match a with
  | some s => if s = "" then b else some s
  | _ => b

/-- One row of `all_responses` after the scan loop enriched it (`r.update`
in the hit and fresh paths). -/
structure EnrichedRow where
  base : ReviewRow
  category : String
  app_name : String
  last_modified : Option String
  file_created : Option String
  audit_log : Option String
  file_creator : Option String
  file_modifier : Option String
  stats_appr : Nat
  stats_deny : Nat
  stats_chg : Nat
  source_is_cache : Bool
deriving DecidableEq

/-- Enrichment of one cached row on the hit path (PART 3): outcome flags are
recomputed from the cached response text; audit fields come from the cached
snapshot. -/
def enrichHit (category app_name : String) (remote_mod : Option String) (a : Audit)
    (r : ReviewRow) : EnrichedRow :=
  let st := get_row_stats r.response
  { base := r, category := category, app_name := app_name, last_modified := remote_mod
    file_created := a.created_ts, audit_log := a.log
    file_creator := a.creator, file_modifier := a.modifier
    stats_appr := st.is_appr, stats_deny := st.is_deny, stats_chg := st.is_chg
    source_is_cache := true }

/-- Enrichment of one freshly extracted row (fresh path): identical except
`file_created` falls back to the remote creation date and the row is marked
non-cached. -/
def enrichFresh (category app_name : String) (remote_mod : Option String) (a : Audit)
    (final_created : Option String) (r : ReviewRow) : EnrichedRow :=
  let st := get_row_stats r.response
  { base := r, category := category, app_name := app_name, last_modified := remote_mod
    file_created := final_created, audit_log := a.log
    file_creator := a.creator, file_modifier := a.modifier
    stats_appr := st.is_appr, stats_deny := st.is_deny, stats_chg := st.is_chg
    source_is_cache := false }

/-- The cache entry written after a fresh extraction (PART 3): version,
fingerprint, summed stats, audit snapshot and the cleaned rows (the cleaned
dict has exactly the fields of `ReviewRow`, so cleaning is the identity). -/
def entryOf (remote_mod : Option String) (a : Audit) (rows : List ReviewRow) : CacheEntry :=
  { v := some CACHE_VERSION, last_mod := remote_mod
    stats :=
      { Appr := (rows.map (fun r => (get_row_stats r.response).is_appr)).sum
        Deny := (rows.map (fun r => (get_row_stats r.response).is_deny)).sum
        Chg := (rows.map (fun r => (get_row_stats r.response).is_chg)).sum }
    audit := a
    rows := some rows }

/-- Decidable equality for `Except`, needed to evaluate concrete scans. -/
instance {ε α : Type} [DecidableEq ε] [DecidableEq α] : DecidableEq (Except ε α) := fun a b =>
  match a, b with
  | .error x, .error y =>
    if h : x = y then isTrue (by rw [h]) else isFalse (by simp [h])
  | .ok x, .ok y =>
    if h : x = y then isTrue (by rw [h]) else isFalse (by simp [h])
  | .error _, .ok _ => isFalse (by simp)
  | .ok _, .error _ => isFalse (by simp)

/-- One target entity of the scan loop together with the behaviour of its
external collaborators: the folder's file listing, the downloaded-and-opened
workbook and the audit lookup, each of which may raise (`Except.error` is the
exception message). -/
structure EntityInput where
  category : String
  app_name : String
  reviewer_name : String
  folder_url : String
  files : Except String (List FileMeta)
  download : Except String Workbook
  audit : Except String Audit
deriving DecidableEq

/-- Cache key `f"{category}|{current_app_name}|{reviewer_name}"`. -/
def cache_key (e : EntityInput) : String :=
  e.category ++ "|" ++ e.app_name ++ "|" ++ e.reviewer_name

/-- One recorded per-entity error (the dict appended to `errors`). -/
structure ScanError where
  category : String
  app_name : String
  reviewer : String
  error : String
  folder_url : String
deriving DecidableEq

/-- Builds the `errors` record for one failing entity. -/
def mkScanError (e : EntityInput) (msg : String) : ScanError :=
  { category := e.category, app_name := e.app_name, reviewer := e.reviewer_name
    error := msg, folder_url := e.folder_url }

/-- Terminal state of one entity in the scan loop: skipped (no target file),
cache hit, fresh extraction (with the cache entry written, if any), or failed
with a recorded error. -/
inductive Outcome where
  | skipped
  | hit (rows : List EnrichedRow)
  | fresh (rows : List EnrichedRow) (wrote : Option CacheEntry)
  | failed (err : ScanError)
deriving DecidableEq

/-- One iteration of the inner scan loop (PART 3) for one entity, given the
current cache: discovery, target choice, cache check, then the hit or fresh
path; any exception from an external call becomes a `failed` outcome. -/
def runEntity (useCache : Bool) (cache : CacheMap) (e : EntityInput) : Outcome :=
  match e.files with
  | .error msg => .failed (mkScanError e msg)
  | .ok files =>
    match target_of e.reviewer_name files with
    | Option.none => .skipped
    | some t =>
      let remote_mod := t.lastModifiedDateTime
      let cached := cache (cache_key e)
      if is_hit useCache cached remote_mod then
        match cached with
        | some c =>
          .hit (((c.rows).getD []).map (enrichHit e.category e.app_name remote_mod c.audit))
        | _ => .skipped
      else
        match e.download with
        | .error msg => .failed (mkScanError e msg)
        | .ok wb =>
          match e.audit with
          | .error msg => .failed (mkScanError e msg)
          | .ok a =>
            let rows := read_excel_rows wb e.reviewer_name t.name e.folder_url
            let final_created := pyOr a.created_ts t.createdDateTime
            .fresh (rows.map (enrichFresh e.category e.app_name remote_mod a final_created))
              (if rows.isEmpty then Option.none else some (entryOf remote_mod a rows))

/-- Mutable state of the scan loop: the cache, the dirty flag, the flat
response list and the error list. -/
structure ScanState where
  cache : CacheMap
  cache_updated : Bool
  all_responses : List EnrichedRow
  errors : List ScanError

/-- Folds one entity's outcome into the scan state: a failure only appends an
error; a hit or fresh extraction appends its rows; a fresh extraction with a
non-empty row list also writes its cache entry and marks the cache dirty. -/
def scanStep (useCache : Bool) (st : ScanState) (e : EntityInput) : ScanState :=
  match runEntity useCache st.cache e with
  | .skipped => st
  | .failed err => { st with errors := st.errors ++ [err] }
  | .hit rows => { st with all_responses := st.all_responses ++ rows }
  | .fresh rows wrote =>
    { st with
      all_responses := st.all_responses ++ rows
      cache := match wrote with
               | some entry => updateCache st.cache (cache_key e) entry
               | _ => st.cache
      cache_updated := st.cache_updated || wrote.isSome }

/-- Initial scan state over a loaded cache. -/
def initState (cache : CacheMap) : ScanState :=
  { cache := cache, cache_updated := false, all_responses := [], errors := [] }

/-- The whole scan loop (PART 3) over a list of target entities. -/
def runScan (useCache : Bool) (cache : CacheMap) (es : List EntityInput) : ScanState :=
  es.foldl (scanStep useCache) (initState cache)

/-- The trace of the scan: each entity paired with the scan state it was
processed in. -/
def scanPre (useCache : Bool) (st : ScanState) : List EntityInput → List (ScanState × EntityInput)
  | [] => []
  | e :: es => (st, e) :: scanPre useCache (scanStep useCache st e) es

/-- The cache file after the run: `save_json` rewrites it only when
`cache_updated` was set; otherwise the file on disk keeps its old contents. -/
def persistedCache (useCache : Bool) (init : CacheMap) (es : List EntityInput) : CacheMap :=
  let st := runScan useCache init es
  if st.cache_updated then st.cache else init

/-- Distinct reviewers of one `(Category, App_Name)` group of `df`, i.e. the
group-by rows contributing to one dashboard node (each `(category, app,
reviewer)` group of the pandas group-by yields exactly one stats row). -/
def reviewersIn (df : List EnrichedRow) (c a : String) : List String :=
  ((df.filter (fun x => x.category == c && x.app_name == a)).map
    (fun x => x.base.reviewer)).dedup

/-- All rows of one `(Category, App_Name, reviewer)` group. -/
def groupOf (df : List EnrichedRow) (c a r : String) : List EnrichedRow :=
  df.filter (fun x => x.category == c && x.app_name == a && x.base.reviewer == r)

/-- The `missing` aggregate: sum of the boolean `is_missing` column. -/
def missingOf (g : List EnrichedRow) : Nat :=
  (g.filter (fun x => x.base.is_missing)).length

/-- The `approved` aggregate. -/
def apprOf (g : List EnrichedRow) : Nat := (g.map (fun x => x.stats_appr)).sum

/-- The `denied` aggregate. -/
def denyOf (g : List EnrichedRow) : Nat := (g.map (fun x => x.stats_deny)).sum

/-- The `changed` aggregate. -/
def chgOf (g : List EnrichedRow) : Nat := (g.map (fun x => x.stats_chg)).sum

/-- The `is_cached` aggregate: `all` of the `source_is_cache` column. -/
def isCachedOf (g : List EnrichedRow) : Bool := g.all (fun x => x.source_is_cache)

/-- Per-reviewer status text (`status_calc` in PART 4). -/
def statusCalc (missing : Nat) (cached : Bool) : String :=
  if missing == 0 then
    (if cached then "✅ Cached - Completed" else "✅ Completed")
  else "❌ Pending: " ++ toString missing

/-- Source link of one reviewer line: the `folder_url` of the first `df` row
matching the app name and reviewer — the lookup omits the category.  The
fallback is unreachable because the caller only asks for non-empty groups. -/
def folderUrlOf (df : List EnrichedRow) (a r : String) : String :=
  match df.filter (fun x => x.app_name == a && x.base.reviewer == r) with
  | x :: _ => x.base.folder_url
  | [] => "#"

/-- One reviewer line of a dashboard node.  The `detail_html` string of the
source is determined by the three counts (plus the red style on a positive
denied count), so it is modelled by the counts themselves. -/
structure RevDetail where
  status_calc : String
  approved : Nat
  denied : Nat
  changed : Nat
  folder_url : String
deriving DecidableEq

/-- Builds one reviewer line from its group. -/
def mkDetail (df : List EnrichedRow) (c a r : String) : RevDetail :=
  let g := groupOf df c a r
  { status_calc := statusCalc (missingOf g) (isCachedOf g)
    approved := apprOf g
    denied := denyOf g
    changed := chgOf g
    folder_url := folderUrlOf df a r }

/-- One `(Category, App_Name)` node of `unified_data`. -/
@[ext]
structure AggNode where
  category : String
  app_name : String
  status_manual : String
  note_manual : String
  reviewers : String → Option RevDetail
  total_users : Nat
  completed_users : Nat

/-- The dashboard rollup `unified_data` (PART 4) as a map from `(Category,
App_Name)` to its node.  `manual` models `manual_data_store.get(key, {})`
with the `"Calculated"` / `""` defaults already applied to the pair
`(app_status, app_note)`; its key is the literal `"Category > App_Name"`
string the source builds. -/
def aggregate (manual : String → String × String) (df : List EnrichedRow) :
    String × String → Option AggNode := fun p =>
  let revs := reviewersIn df p.1 p.2
  if revs.isEmpty then Option.none
  else some
    { category := p.1
      app_name := p.2
      status_manual := (manual (p.1 ++ " > " ++ p.2)).1
      note_manual := (manual (p.1 ++ " > " ++ p.2)).2
      reviewers := fun r =>
        if revs.contains r then some (mkDetail df p.1 p.2 r) else Option.none
      total_users := revs.length
      completed_users := (revs.filter (fun r => missingOf (groupOf df p.1 p.2 r) == 0)).length }

/-- Projection of an enriched row to the data the aggregate consumes from it:
reviewer, the three outcome flags and the missing marker. -/
def projStats (x : EnrichedRow) : String × Nat × Nat × Nat × Bool :=
  (x.base.reviewer, x.stats_appr, x.stats_deny, x.stats_chg, x.base.is_missing)

/-- The error, if any, one scan step records. -/
def stepFail (u : Bool) (p : ScanState × EntityInput) : Option ScanError :=
  match runEntity u p.1.cache p.2 with
  | .failed err => some err
  | _ => Option.none

/-- The enriched rows one scan step appends to `all_responses`. -/
def stepRows (u : Bool) (p : ScanState × EntityInput) : List EnrichedRow :=
  match runEntity u p.1.cache p.2 with
  | .hit rs => rs
  | .fresh rs _ => rs
  | _ => []

/-- Whether one scan step writes a cache entry. -/
def writesStep (u : Bool) (p : ScanState × EntityInput) : Bool :=
  match runEntity u p.1.cache p.2 with
  | .fresh _ (some _) => true
  | _ => false

/-- Concrete header row used by the example workbooks. -/
def hdrW : List Value := [.str "Reviewer Name", .str "Response", .str " User Name "]

/-- Concrete data rows for several reviewers, including falsy response cells
(`0` and `FALSE`). -/
def dataRowsW : List (List Value) :=
  [[.str " Alice ", .str "Approved", .str "Bob"],
   [.str "carol", .str "Denied - remove access", .str "Dan"],
   [.str "alice", .int 0, .str "Eve"],
   [.str "ALICE", .bool false, .bool false]]

/-- Example workbook: a marker sheet holding `hdrW` and `dataRowsW`. -/
def wbW : Workbook := ⟨[("User Listing FY24", hdrW :: dataRowsW)]⟩

/-- Example workbook with no recognizable response column. -/
def wbNoResp : Workbook :=
  ⟨[("Sheet1", [[Value.str "Reviewer", Value.str "Notes"], [Value.str "alice", Value.str "x"]])]⟩

/-- Example workbook with no sheet name containing the marker. -/
def wbNoMark : Workbook := ⟨[("Summary", [hdrW]), ("Data", [hdrW])]⟩

/-- Example workbook whose selected sheet has a header but no data rows. -/
def wbHeaderOnly : Workbook := ⟨[("User Listing", [hdrW])]⟩

/-- Example workbook with exactly one row for reviewer alice. -/
def wbOneRow : Workbook :=
  ⟨[("User Listing", [hdrW, [.str "alice", .str "Approved", .str "Bob"]])]⟩

/-- Example remote file metadata. -/
def fileW : FileMeta :=
  ⟨"id1", "alice.xlsx", some "2024-05-01T10:00:00Z", some "2024-01-01T00:00:00Z"⟩

/-- Example audit snapshot. -/
def auditW : Audit := ⟨some "2024-01-01", some "v1 by alice", some "alice", some "bob"⟩

/-- Entity whose spreadsheet yields no rows for its reviewer. -/
def eEmpty : EntityInput :=
  ⟨"cat1", "app1", "alice", "http://folder/alice", .ok [fileW], .ok wbHeaderOnly, .ok auditW⟩

/-- Entity whose spreadsheet yields one approved row. -/
def eOne : EntityInput :=
  ⟨"cat1", "app1", "alice", "http://folder/alice", .ok [fileW], .ok wbOneRow, .ok auditW⟩

/-- Entity whose folder listing raises. -/
def eBad : EntityInput :=
  ⟨"cat1", "app1", "bob", "http://folder/bob", .error "listFolders timeout", .ok wbOneRow,
    .ok auditW⟩

/-- Concrete extracted row for the aggregation examples. -/
def rowAliceU1 : ReviewRow :=
  ⟨"alice", "Bob", "bob@x", "Approved", "", false, 2, "alice.xlsx", "http://u1"⟩

/-- Same reviewer and application, different folder link. -/
def rowAliceU2 : ReviewRow :=
  ⟨"alice", "Dan", "dan@x", "Approved", "", false, 2, "alice.xlsx", "http://u2"⟩

/-- Enriched row of entity `(catA, app1, alice)`. -/
def erCatA : EnrichedRow :=
  ⟨rowAliceU1, "catA", "app1", some "m1", some "c1", some "log", some "alice", some "bob",
    1, 0, 0, false⟩

/-- Enriched row of entity `(catB, app1, alice)`: a different category sharing
the application name and reviewer. -/
def erCatB : EnrichedRow :=
  ⟨rowAliceU2, "catB", "app1", some "m2", some "c2", some "log", some "alice", some "bob",
    1, 0, 0, false⟩

/-- Enriched row of a second reviewer in `(catA, app1)`. -/
def erCarol : EnrichedRow :=
  ⟨⟨"carol", "", "", "Denied", "", false, 3, "carol.xlsx", "http://u3"⟩,
    "catA", "app1", Option.none, Option.none, Option.none, Option.none, Option.none,
    0, 1, 0, true⟩

/-- Manual-note store with no saved overrides (defaults applied). -/
def manualW : String → String × String := fun _ => ("Calculated", "")

/-- Two entity results whose categories differ but share `(app, reviewer)`. -/
def dfX1 : List EnrichedRow := [erCatA, erCatB]

/-- The same two entity results in the opposite order. -/
def dfX2 : List EnrichedRow := [erCatB, erCatA]

/-- Two entity results with distinct `(app, reviewer)` pairs. -/
def dfP1 : List EnrichedRow := [erCatA, erCarol]

/-- The same two entity results in the opposite order. -/
def dfP2 : List EnrichedRow := [erCarol, erCatA]

/-- Cache entry with a current version, a known fingerprint and one row. -/
def entryHitW : CacheEntry :=
  ⟨some CACHE_VERSION, some "2024-05-01T10:00:00Z", ⟨1, 0, 0⟩, auditW, some [rowAliceU1]⟩

/-- Cache entry identical but with an empty row list. -/
def entryZeroW : CacheEntry :=
  ⟨some CACHE_VERSION, some "2024-05-01T10:00:00Z", ⟨0, 0, 0⟩, auditW, some []⟩

theorem iteOneEqOne (c : Bool) : ((if c then (1 : Nat) else 0) = 1) ↔ c = true := by
  cases c <;> simp

theorem classify_flag_iff (kw : List String) (t : String) :
    ((if kw.any (fun k => strContains t k) then (1 : Nat) else 0) = 1) ↔
      ∃ k ∈ kw, strContains t k = true := by
  rw [iteOneEqOne, List.any_eq_true]

theorem extractRows_nil (a b : Nat) (c d e : Option Nat) (rn fn fu : String) (i : Nat) :
    extractRows a b c d e rn fn fu i [] = [] := rfl

theorem extractRows_cons (a b : Nat) (c d e : Option Nat) (rn fn fu : String) (i : Nat)
    (row : List Value) (rest : List (List Value)) :
    extractRows a b c d e rn fn fu i (row :: rest) =
      if keepRow a rn row then
        mkRow rn fn fu i (row.getD b Value.none) (cellOpt row c) (cellOpt row d)
            (cellOpt row e) ::
          extractRows a b c d e rn fn fu (i + 1) rest
      else extractRows a b c d e rn fn fu (i + 1) rest := rfl

theorem mem_extractRows_mkRow (a b : Nat) (c d e : Option Nat) (rn fn fu : String) :
    ∀ (l : List (List Value)) (i : Nat) (r : ReviewRow),
      r ∈ extractRows a b c d e rn fn fu i l →
      ∃ k vres vdet vuser vemail, r = mkRow rn fn fu k vres vdet vuser vemail := by
  intro l
  induction l with
  | nil => intro i r h; rw [extractRows_nil] at h; exact absurd h (List.not_mem_nil r)
  | cons row rest ih =>
    intro i r h
    rw [extractRows_cons] at h
    by_cases hk : keepRow a rn row = true
    · rw [if_pos hk] at h
      rcases List.mem_cons.mp h with h | h
      · exact ⟨i, _, _, _, _, h⟩
      · exact ih (i + 1) r h
    · rw [if_neg hk] at h
      exact ih (i + 1) r h

theorem read_excel_rows_of_sheet (wb : Workbook) (rn fn fu : String) (header : List Value)
    (dataRows : List (List Value)) (hs : selectSheet wb = header :: dataRows) :
    read_excel_rows wb rn fn fu = extractHeader header dataRows rn fn fu := by
  unfold read_excel_rows
  rw [hs]

theorem read_excel_rows_of_empty (wb : Workbook) (rn fn fu : String)
    (hs : selectSheet wb = []) : read_excel_rows wb rn fn fu = [] := by
  unfold read_excel_rows
  rw [hs]

theorem extractHeader_eq_some (header : List Value) (dataRows : List (List Value))
    (rn fn fu : String) (ir ires : Nat)
    (hir : resolveRevIdx header = some ir)
    (hres : find_col_index header ["response"] = some ires) :
    extractHeader header dataRows rn fn fu =
      extractRows ir ires (find_col_index header ["details", "change"])
        (resolveUserIdx header) (resolveEmailIdx header) rn fn fu 2 dataRows := by
  unfold extractHeader
  rw [hir, hres]

theorem extractHeader_eq_nil (header : List Value) (dataRows : List (List Value))
    (rn fn fu : String)
    (h : resolveRevIdx header = Option.none ∨
      find_col_index header ["response"] = Option.none) :
    extractHeader header dataRows rn fn fu = [] := by
  unfold extractHeader
  rcases h with h | h
  · rw [h]
  · rcases h2 : resolveRevIdx header with _ | ir <;> rw [h]

theorem mem_read_excel_rows_mkRow (wb : Workbook) (rn fn fu : String) (r : ReviewRow)
    (h : r ∈ read_excel_rows wb rn fn fu) :
    ∃ k vres vdet vuser vemail, r = mkRow rn fn fu k vres vdet vuser vemail := by
  rcases hs : selectSheet wb with _ | ⟨header, dataRows⟩
  · rw [read_excel_rows_of_empty wb rn fn fu hs] at h
    exact absurd h (List.not_mem_nil r)
  · rw [read_excel_rows_of_sheet wb rn fn fu header dataRows hs] at h
    rcases hir : resolveRevIdx header with _ | ir
    · rw [extractHeader_eq_nil header dataRows rn fn fu (Or.inl hir)] at h
      exact absurd h (List.not_mem_nil r)
    · rcases hres : find_col_index header ["response"] with _ | ires
      · rw [extractHeader_eq_nil header dataRows rn fn fu (Or.inr hres)] at h
        exact absurd h (List.not_mem_nil r)
      · rw [extractHeader_eq_some header dataRows rn fn fu ir ires hir hres] at h
        exact mem_extractRows_mkRow ir ires _ _ _ rn fn fu dataRows 2 r h

theorem mkRow_is_missing_iff (rn fn fu : String) (k : Nat) (vres vdet vuser vemail : Value) :
    ((mkRow rn fn fu k vres vdet vuser vemail).is_missing = true ↔
      (mkRow rn fn fu k vres vdet vuser vemail).response = "") := by
  simp [mkRow]

/-- C3: `get_row_stats` maps "Approved" to the approved-only flags, "Denied -
remove access" to the denied-only flags, the empty string to all-false flags
(and any extracted row with an empty response is marked `is_missing`), and
"please update title" to the changed flag; each flag is set exactly when some
keyword of its fixed list occurs, case-insensitively, in the text, the three
lists being checked independently. -/
theorem classifier_keyword_spec :
    get_row_stats "Approved" = ⟨1, 0, 0⟩ ∧
    get_row_stats "Denied - remove access" = ⟨0, 1, 0⟩ ∧
    get_row_stats "" = ⟨0, 0, 0⟩ ∧
    get_row_stats "please update title" = ⟨0, 0, 1⟩ ∧
    (∀ txt : String,
      ((get_row_stats txt).is_appr = 1 ↔
        ∃ k ∈ kw_appr, strContains (trimStr (toLowerStr txt)) k = true) ∧
      ((get_row_stats txt).is_deny = 1 ↔
        ∃ k ∈ kw_deny, strContains (trimStr (toLowerStr txt)) k = true) ∧
      ((get_row_stats txt).is_chg = 1 ↔
        ∃ k ∈ kw_chg, strContains (trimStr (toLowerStr txt)) k = true)) ∧
    (∀ (wb : Workbook) (rn fn fu : String), ∀ r ∈ read_excel_rows wb rn fn fu,
      (r.is_missing = true ↔ r.response = "")) := by
  refine ⟨by decide, by decide, by decide, by decide, fun txt => ?_, ?_⟩
  · exact ⟨classify_flag_iff kw_appr _, classify_flag_iff kw_deny _, classify_flag_iff kw_chg _⟩
  · intro wb rn fn fu r hr
    obtain ⟨k, vres, vdet, vuser, vemail, rfl⟩ := mem_read_excel_rows_mkRow wb rn fn fu r hr
    exact mkRow_is_missing_iff rn fn fu k vres vdet vuser vemail

theorem classifier_keyword_spec_witness :
    ((get_row_stats "Approved").is_appr = 1 ↔
      ∃ k ∈ kw_appr, strContains (trimStr (toLowerStr "Approved")) k = true) ∧
    ((⟨"Alice", "Bob", "", "Approved", "", false, 2, "f.xlsx", "http://u"⟩ : ReviewRow).is_missing
        = true ↔
      (⟨"Alice", "Bob", "", "Approved", "", false, 2, "f.xlsx", "http://u"⟩ : ReviewRow).response
        = "") :=
  ⟨(classifier_keyword_spec.2.2.2.2.1 "Approved").1,
   classifier_keyword_spec.2.2.2.2.2 wbW "Alice" "f.xlsx" "http://u" _ (by decide)⟩

/-- C10: for every kept row a falsy response cell — `None`, the empty string,
the number 0 or the boolean False — is stored as response `""` with
`is_missing` true, so a cell literally containing 0 or FALSE counts as
unanswered; the same falsy-to-empty coercion applies to the details,
user-name and user-email cells, as the concrete workbook `wbW` shows
end-to-end. -/
theorem falsy_cells_count_missing :
    (pyTruthy Value.none = false ∧ pyTruthy (Value.str "") = false ∧
      pyTruthy (Value.int 0) = false ∧ pyTruthy (Value.bool false) = false) ∧
    (∀ (rn fn fu : String) (i : Nat) (vres vdet vuser vemail : Value),
      (pyTruthy vres = false →
        (mkRow rn fn fu i vres vdet vuser vemail).response = "" ∧
        (mkRow rn fn fu i vres vdet vuser vemail).is_missing = true) ∧
      (pyTruthy vdet = false → (mkRow rn fn fu i vres vdet vuser vemail).details = "") ∧
      (pyTruthy vuser = false → (mkRow rn fn fu i vres vdet vuser vemail).user_name = "") ∧
      (pyTruthy vemail = false → (mkRow rn fn fu i vres vdet vuser vemail).user_email = "")) ∧
    read_excel_rows wbW "Alice" "f.xlsx" "http://u" =
      [⟨"Alice", "Bob", "", "Approved", "", false, 2, "f.xlsx", "http://u"⟩,
       ⟨"Alice", "Eve", "", "", "", true, 4, "f.xlsx", "http://u"⟩,
       ⟨"Alice", "", "", "", "", true, 5, "f.xlsx", "http://u"⟩] := by
  refine ⟨by decide, ?_, by decide⟩
  intro rn fn fu i vres vdet vuser vemail
  refine ⟨fun h => ⟨?_, ?_⟩, fun h => ?_, fun h => ?_, fun h => ?_⟩ <;> simp [mkRow, h]

theorem falsy_cells_count_missing_witness :
    (mkRow "alice" "f" "u" 2 (Value.int 0) Value.none (Value.bool false) Value.none).response
        = "" ∧
    (mkRow "alice" "f" "u" 2 (Value.int 0) Value.none (Value.bool false) Value.none).is_missing
        = true :=
  (falsy_cells_count_missing.2.1 "alice" "f" "u" 2 (Value.int 0) Value.none
    (Value.bool false) Value.none).1 (by decide)

/-- C1: with caching enabled (`USE_CACHE`), a cache entry is a hit for a live
file exactly when its stored engine version equals `CACHE_VERSION`, its
stored last-modified timestamp equals the live one, and its stored rows list
is present and non-empty; in particular an entry with zero rows is never a
hit even when both fingerprint components match. -/
theorem cache_hit_iff_fingerprint_and_rows (c : CacheEntry) (m : Option String) :
    (is_hit true (some c) m = true ↔
      c.v = some CACHE_VERSION ∧ c.last_mod = m ∧ ∃ rs, c.rows = some rs ∧ rs ≠ []) ∧
    ((c.rows = some [] ∨ c.rows = Option.none) → is_hit true (some c) m = false) := by
  constructor
  · rcases hr : c.rows with _ | rs <;>
      simp [is_hit, hr, Bool.and_eq_true, beq_iff_eq, List.length_pos, and_assoc]
  · rintro (hr | hr) <;> simp [is_hit, hr]

theorem cache_hit_iff_fingerprint_and_rows_witness :
    is_hit true (some entryHitW) (some "2024-05-01T10:00:00Z") = true ∧
    is_hit true (some entryZeroW) (some "2024-05-01T10:00:00Z") = false :=
  ⟨(cache_hit_iff_fingerprint_and_rows entryHitW (some "2024-05-01T10:00:00Z")).1.mpr
      ⟨rfl, rfl, [rowAliceU1], rfl, by decide⟩,
   (cache_hit_iff_fingerprint_and_rows entryZeroW (some "2024-05-01T10:00:00Z")).2 (Or.inl rfl)⟩

/-- C9: a missing, unreadable or malformed backing cache file loads as the
empty store — never a fatal error — and with an empty store every lookup
misses, so the run proceeds as a rebuild from scratch. -/
theorem corrupt_cache_loads_empty (f : BackingFile) :
    (f = .absent ∨ f = .unreadable ∨ f = .malformed) →
    (∀ k, load_json f k = Option.none) ∧
    (∀ (u : Bool) (k : String) (m : Option String), is_hit u (load_json f k) m = false) := by
  rintro (rfl | rfl | rfl) <;>
    exact ⟨fun k => rfl, fun u k m => by simp [load_json, emptyCacheMap, is_hit]⟩

theorem corrupt_cache_loads_empty_witness :
    load_json .malformed "cat1|app1|alice" = Option.none ∧
    is_hit true (load_json .malformed "cat1|app1|alice") (some "2024") = false :=
  ⟨(corrupt_cache_loads_empty .malformed (Or.inr (Or.inr rfl))).1 "cat1|app1|alice",
   (corrupt_cache_loads_empty .malformed (Or.inr (Or.inr rfl))).2 true "cat1|app1|alice"
     (some "2024")⟩

/-- C6: extraction fails closed with an empty result when, after the manager
fallback, no reviewer column or no response column can be located in the
header row; and when no sheet name contains the marker substring
`"user listing"` the first sheet is selected instead of failing. -/
theorem extractor_fails_closed_and_sheet_fallback (wb : Workbook) (rn fn fu : String) :
    (∀ header dataRows, selectSheet wb = header :: dataRows →
      (resolveRevIdx header = Option.none ∨
        find_col_index header ["response"] = Option.none) →
      read_excel_rows wb rn fn fu = []) ∧
    ((∀ p ∈ wb.sheets, strContains (toLowerStr p.1) "user listing" = false) →
      selectSheetPair wb = wb.sheets.head?) := by
  constructor
  · intro header dataRows hs hcols
    rw [read_excel_rows_of_sheet wb rn fn fu header dataRows hs]
    exact extractHeader_eq_nil header dataRows rn fn fu hcols
  · intro hno
    unfold selectSheetPair
    rcases hs : wb.sheets with _ | ⟨first, rest⟩
    · rfl
    · have hf : wb.sheets.find?
          (fun p => strContains (toLowerStr p.1) "user listing") = Option.none := by
        rw [List.find?_eq_none]
        intro x hx
        simp [hno x hx]
      rw [hs] at hf
      rw [hf]
      rfl

theorem extractor_fails_closed_witness :
    read_excel_rows wbNoResp "alice" "f" "u" = [] ∧
    selectSheetPair wbNoMark = wbNoMark.sheets.head? :=
  ⟨(extractor_fails_closed_and_sheet_fallback wbNoResp "alice" "f" "u").1
      [Value.str "Reviewer", Value.str "Notes"] [[Value.str "alice", Value.str "x"]] rfl
      (Or.inr (by decide)),
   (extractor_fails_closed_and_sheet_fallback wbNoMark "alice" "f" "u").2 (by decide)⟩

theorem extractRows_row_number_ge (a b : Nat) (c d e : Option Nat) (rn fn fu : String) :
    ∀ (l : List (List Value)) (i : Nat) (r : ReviewRow),
      r ∈ extractRows a b c d e rn fn fu i l → i ≤ r.row_number := by
  intro l
  induction l with
  | nil => intro i r h; rw [extractRows_nil] at h; exact absurd h (List.not_mem_nil r)
  | cons row rest ih =>
    intro i r h
    rw [extractRows_cons] at h
    by_cases hk : keepRow a rn row = true
    · rw [if_pos hk] at h
      rcases List.mem_cons.mp h with h | h
      · rw [h]; simp [mkRow]
      · exact le_trans (Nat.le_succ i) (ih (i + 1) r h)
    · rw [if_neg hk] at h
      exact le_trans (Nat.le_succ i) (ih (i + 1) r h)

theorem extractRows_exists_iff (a b : Nat) (c d e : Option Nat) (rn fn fu : String) :
    ∀ (l : List (List Value)) (i j : Nat) (hj : j < l.length),
      ((∃ r ∈ extractRows a b c d e rn fn fu i l, r.row_number = i + j) ↔
        keepRow a rn (l.get ⟨j, hj⟩) = true) := by
  intro l
  induction l with
  | nil => intro i j hj; exact absurd hj (Nat.not_lt_zero j)
  | cons row rest ih =>
    intro i j hj
    rw [extractRows_cons]
    cases j with
    | zero =>
      show _ ↔ keepRow a rn row = true
      by_cases hk : keepRow a rn row = true
      · rw [if_pos hk]
        refine ⟨fun _ => hk, fun _ => ?_⟩
        exact ⟨mkRow rn fn fu i (row.getD b Value.none) (cellOpt row c) (cellOpt row d)
          (cellOpt row e), List.mem_cons_self _ _, by simp [mkRow]⟩
      · rw [if_neg hk]
        refine ⟨fun hex => ?_, fun hc => absurd hc hk⟩
        exfalso
        rcases hex with ⟨r, hr, hnum⟩
        have := extractRows_row_number_ge a b c d e rn fn fu rest (i + 1) r hr
        omega
    | succ j2 =>
      have hj2 : j2 < rest.length := Nat.lt_of_succ_lt_succ hj
      show _ ↔ keepRow a rn (rest.get ⟨j2, hj2⟩) = true
      rw [← ih (i + 1) j2 hj2]
      by_cases hk : keepRow a rn row = true
      · rw [if_pos hk]
        constructor
        · rintro ⟨r, hr, hnum⟩
          rcases List.mem_cons.mp hr with h | h
          · exfalso; rw [h] at hnum; simp [mkRow] at hnum
          · exact ⟨r, h, by omega⟩
        · rintro ⟨r, hr, hnum⟩
          exact ⟨r, List.mem_cons_of_mem _ hr, by omega⟩
      · rw [if_neg hk]
        constructor
        · rintro ⟨r, hr, hnum⟩; exact ⟨r, hr, by omega⟩
        · rintro ⟨r, hr, hnum⟩; exact ⟨r, hr, by omega⟩

/-- C7: when extraction proceeds (a sheet is selected and the reviewer and
response columns are located), a data row contributes a result row if and
only if its reviewer-column value — stringified, stripped and lowered —
equals the lowered target reviewer name; all other rows are excluded. -/
theorem row_filter_reviewer_match (wb : Workbook) (rn fn fu : String)
    (header : List Value) (dataRows : List (List Value)) (ir ires : Nat)
    (hs : selectSheet wb = header :: dataRows)
    (hir : resolveRevIdx header = some ir)
    (hres : find_col_index header ["response"] = some ires) :
    ∀ (j : Nat) (hj : j < dataRows.length),
      ((∃ r ∈ read_excel_rows wb rn fn fu, r.row_number = j + 2) ↔
        toLowerStr (trimStr (pyStr ((dataRows.get ⟨j, hj⟩).getD ir Value.none)))
          = toLowerStr rn) := by
  intro j hj
  rw [read_excel_rows_of_sheet wb rn fn fu header dataRows hs,
    extractHeader_eq_some header dataRows rn fn fu ir ires hir hres]
  have h2 := extractRows_exists_iff ir ires (find_col_index header ["details", "change"])
    (resolveUserIdx header) (resolveEmailIdx header) rn fn fu dataRows 2 j hj
  rw [show j + 2 = 2 + j from Nat.add_comm j 2, h2]
  simp [keepRow]

theorem row_filter_reviewer_match_witness :
    ((∃ r ∈ read_excel_rows wbW "Alice" "f.xlsx" "http://u", r.row_number = 0 + 2) ↔
      toLowerStr (trimStr (pyStr ((dataRowsW.get ⟨0, by decide⟩).getD 0 Value.none)))
        = toLowerStr "Alice") :=
  row_filter_reviewer_match wbW "Alice" "f.xlsx" "http://u" hdrW dataRowsW 0 1
    rfl rfl rfl 0 (by decide)

theorem runEntity_fresh_eq (u : Bool) (cache : CacheMap) (e : EntityInput)
    (fs : List FileMeta) (t : FileMeta) (wb : Workbook) (a : Audit)
    (hf : e.files = .ok fs) (ht : target_of e.reviewer_name fs = some t)
    (hmiss : is_hit u (cache (cache_key e)) t.lastModifiedDateTime = false)
    (hd : e.download = .ok wb) (ha : e.audit = .ok a) :
    runEntity u cache e =
      .fresh ((read_excel_rows wb e.reviewer_name t.name e.folder_url).map
          (enrichFresh e.category e.app_name t.lastModifiedDateTime a
            (pyOr a.created_ts t.createdDateTime)))
        (if (read_excel_rows wb e.reviewer_name t.name e.folder_url).isEmpty then Option.none
         else some (entryOf t.lastModifiedDateTime a
           (read_excel_rows wb e.reviewer_name t.name e.folder_url))) := by
  unfold runEntity
  simp only [hf, ht, hmiss, hd, ha]
  simp

theorem runEntity_hit_eq (u : Bool) (cache : CacheMap) (e : EntityInput)
    (fs : List FileMeta) (t : FileMeta) (c : CacheEntry)
    (hf : e.files = .ok fs) (ht : target_of e.reviewer_name fs = some t)
    (hc : cache (cache_key e) = some c)
    (hhit : is_hit u (some c) t.lastModifiedDateTime = true) :
    runEntity u cache e =
      .hit ((c.rows.getD []).map
        (enrichHit e.category e.app_name t.lastModifiedDateTime c.audit)) := by
  unfold runEntity
  simp only [hf, ht, hc, hhit]
  simp

/-- C2 counterexample: the entity `eEmpty` is processed twice with an
unchanged remote fingerprint, yet the second run is `fresh`, not `hit` —
the first fresh extraction yielded zero rows, so no cache entry was written
and the claimed hit path is never taken. -/
theorem second_run_not_hit_on_empty_extraction :
    runEntity true emptyCacheMap eEmpty = .fresh [] Option.none ∧
    runEntity true ((scanStep true (initState emptyCacheMap) eEmpty).cache) eEmpty
      = .fresh [] Option.none := by decide

/-- C2 (amended): for an entity whose first run takes the fresh path and
whose extraction yields at least one row, a second run with an unchanged
remote fingerprint takes the hit path, and the per-row outcome flags,
missing count and per-reviewer totals it contributes are identical to the
first run's fresh result. -/
theorem second_run_hit_reproduces_fresh
    (c0 : CacheMap) (e : EntityInput) (fs : List FileMeta) (t : FileMeta)
    (wb : Workbook) (a : Audit)
    (hf : e.files = .ok fs) (ht : target_of e.reviewer_name fs = some t)
    (hd : e.download = .ok wb) (ha : e.audit = .ok a)
    (hmiss : is_hit true (c0 (cache_key e)) t.lastModifiedDateTime = false)
    (hne : read_excel_rows wb e.reviewer_name t.name e.folder_url ≠ []) :
    ∃ freshRows hitRows,
      runEntity true c0 e =
        .fresh freshRows (some (entryOf t.lastModifiedDateTime a
          (read_excel_rows wb e.reviewer_name t.name e.folder_url))) ∧
      runEntity true ((scanStep true (initState c0) e).cache) e = .hit hitRows ∧
      hitRows.map projStats = freshRows.map projStats ∧
      (hitRows.filter (fun x => x.base.is_missing)).length
        = (freshRows.filter (fun x => x.base.is_missing)).length ∧
      (hitRows.map (fun x => x.stats_appr)).sum
        = (freshRows.map (fun x => x.stats_appr)).sum ∧
      (hitRows.map (fun x => x.stats_deny)).sum
        = (freshRows.map (fun x => x.stats_deny)).sum ∧
      (hitRows.map (fun x => x.stats_chg)).sum
        = (freshRows.map (fun x => x.stats_chg)).sum := by
  have h1 : runEntity true c0 e =
      .fresh ((read_excel_rows wb e.reviewer_name t.name e.folder_url).map
          (enrichFresh e.category e.app_name t.lastModifiedDateTime a
            (pyOr a.created_ts t.createdDateTime)))
        (some (entryOf t.lastModifiedDateTime a
          (read_excel_rows wb e.reviewer_name t.name e.folder_url))) := by
    rw [runEntity_fresh_eq true c0 e fs t wb a hf ht hmiss hd ha]
    rw [if_neg (by simp only [List.isEmpty_iff]; exact hne)]
  have hcache : (scanStep true (initState c0) e).cache =
      updateCache c0 (cache_key e) (entryOf t.lastModifiedDateTime a
        (read_excel_rows wb e.reviewer_name t.name e.folder_url)) := by
    unfold scanStep initState
    simp only [h1]
  have hc2 : updateCache c0 (cache_key e) (entryOf t.lastModifiedDateTime a
        (read_excel_rows wb e.reviewer_name t.name e.folder_url)) (cache_key e)
      = some (entryOf t.lastModifiedDateTime a
        (read_excel_rows wb e.reviewer_name t.name e.folder_url)) := by
    unfold updateCache
    rw [if_pos rfl]
  have hhit2 : is_hit true (some (entryOf t.lastModifiedDateTime a
        (read_excel_rows wb e.reviewer_name t.name e.folder_url)))
      t.lastModifiedDateTime = true := by
    simp [is_hit, entryOf, List.length_pos, hne]
  have h2 : runEntity true ((scanStep true (initState c0) e).cache) e =
      .hit ((read_excel_rows wb e.reviewer_name t.name e.folder_url).map
        (enrichHit e.category e.app_name t.lastModifiedDateTime a)) := by
    rw [hcache]
    rw [runEntity_hit_eq true _ e fs t _ hf ht hc2 hhit2]
    rfl
  refine ⟨_, _, h1, h2, ?_, ?_, ?_, ?_, ?_⟩
  · rw [List.map_map, List.map_map]; rfl
  · rw [List.filter_map, List.filter_map, List.length_map, List.length_map]; rfl
  · rw [List.map_map, List.map_map]; rfl
  · rw [List.map_map, List.map_map]; rfl
  · rw [List.map_map, List.map_map]; rfl

theorem second_run_hit_reproduces_fresh_witness :
    ∃ freshRows hitRows,
      runEntity true emptyCacheMap eOne =
        .fresh freshRows (some (entryOf fileW.lastModifiedDateTime auditW
          (read_excel_rows wbOneRow eOne.reviewer_name fileW.name eOne.folder_url))) ∧
      runEntity true ((scanStep true (initState emptyCacheMap) eOne).cache) eOne
        = .hit hitRows ∧
      hitRows.map projStats = freshRows.map projStats ∧
      (hitRows.filter (fun x => x.base.is_missing)).length
        = (freshRows.filter (fun x => x.base.is_missing)).length ∧
      (hitRows.map (fun x => x.stats_appr)).sum
        = (freshRows.map (fun x => x.stats_appr)).sum ∧
      (hitRows.map (fun x => x.stats_deny)).sum
        = (freshRows.map (fun x => x.stats_deny)).sum ∧
      (hitRows.map (fun x => x.stats_chg)).sum
        = (freshRows.map (fun x => x.stats_chg)).sum :=
  second_run_hit_reproduces_fresh emptyCacheMap eOne [fileW] fileW wbOneRow auditW
    rfl (by decide) rfl rfl (by decide) (by decide)

theorem foldl_scanStep_errors (u : Bool) :
    ∀ (es : List EntityInput) (st : ScanState),
      (es.foldl (scanStep u) st).errors =
        st.errors ++ (scanPre u st es).filterMap (stepFail u) := by
  intro es
  induction es with
  | nil => intro st; simp [scanPre]
  | cons e es ih =>
    intro st
    rw [List.foldl_cons, ih]
    simp only [scanPre]
    cases hE : runEntity u st.cache e <;>
      simp [scanStep, hE, stepFail, List.append_assoc]

theorem foldl_scanStep_responses (u : Bool) :
    ∀ (es : List EntityInput) (st : ScanState),
      (es.foldl (scanStep u) st).all_responses =
        st.all_responses ++ (scanPre u st es).flatMap (stepRows u) := by
  intro es
  induction es with
  | nil => intro st; simp [scanPre]
  | cons e es ih =>
    intro st
    rw [List.foldl_cons, ih]
    simp only [scanPre]
    cases hE : runEntity u st.cache e <;>
      simp [scanStep, hE, stepRows, List.append_assoc]

theorem foldl_scanStep_updated (u : Bool) :
    ∀ (es : List EntityInput) (st : ScanState),
      (es.foldl (scanStep u) st).cache_updated =
        (st.cache_updated || (scanPre u st es).any (writesStep u)) := by
  intro es
  induction es with
  | nil => intro st; simp [scanPre]
  | cons e es ih =>
    intro st
    rw [List.foldl_cons, ih]
    simp only [scanPre]
    cases hE : runEntity u st.cache e with
    | skipped => simp [scanStep, hE, writesStep, Bool.or_assoc]
    | hit rows => simp [scanStep, hE, writesStep, Bool.or_assoc]
    | failed err => simp [scanStep, hE, writesStep, Bool.or_assoc]
    | fresh rows wrote =>
      cases wrote <;> simp [scanStep, hE, writesStep, Bool.or_assoc]

theorem runEntity_failed_shape (u : Bool) (c : CacheMap) (e : EntityInput) (err : ScanError)
    (h : runEntity u c e = .failed err) : ∃ msg, err = mkScanError e msg := by
  rcases hf : e.files with msg | fs
  · simp only [runEntity, hf] at h
    exact ⟨msg, (Outcome.failed.injEq _ _).mp h |>.symm⟩
  · simp only [runEntity, hf] at h
    rcases ht : target_of e.reviewer_name fs with _ | t
    · simp [ht] at h
    · simp only [ht] at h
      by_cases hh : is_hit u (c (cache_key e)) t.lastModifiedDateTime = true
      · rcases hc : c (cache_key e) with _ | ce
        · rw [hc] at hh; simp [is_hit] at hh
        · rw [hc] at hh
          simp [hh, hc] at h
      · simp only [Bool.not_eq_true] at hh
        simp only [hh] at h
        rcases hd : e.download with msg | wb
        · simp only [hd] at h
          simp at h
          exact ⟨msg, h.symm⟩
        · simp only [hd] at h
          rcases ha : e.audit with msg | a
          · simp only [ha] at h
            simp at h
            exact ⟨msg, h.symm⟩
          · simp [ha] at h

theorem runEntity_fresh_shape (u : Bool) (c : CacheMap) (e : EntityInput)
    (rows : List EnrichedRow) (w : Option CacheEntry)
    (h : runEntity u c e = .fresh rows w) :
    ∃ fs t wb a,
      e.files = .ok fs ∧ target_of e.reviewer_name fs = some t ∧
      e.download = .ok wb ∧ e.audit = .ok a ∧
      rows = (read_excel_rows wb e.reviewer_name t.name e.folder_url).map
        (enrichFresh e.category e.app_name t.lastModifiedDateTime a
          (pyOr a.created_ts t.createdDateTime)) ∧
      w = (if (read_excel_rows wb e.reviewer_name t.name e.folder_url).isEmpty
        then Option.none
        else some (entryOf t.lastModifiedDateTime a
          (read_excel_rows wb e.reviewer_name t.name e.folder_url))) := by
  rcases hf : e.files with msg | fs
  · simp [runEntity, hf] at h
  · simp only [runEntity, hf] at h
    rcases ht : target_of e.reviewer_name fs with _ | t
    · simp [ht] at h
    · simp only [ht] at h
      by_cases hh : is_hit u (c (cache_key e)) t.lastModifiedDateTime = true
      · rcases hc : c (cache_key e) with _ | ce
        · rw [hc] at hh; simp [is_hit] at hh
        · rw [hc] at hh
          simp [hh, hc] at h
      · simp only [Bool.not_eq_true] at hh
        simp only [hh] at h
        rcases hd : e.download with msg | wb
        · simp [hd] at h
        · simp only [hd] at h
          rcases ha : e.audit with msg | a
          · simp [ha] at h
          · simp only [ha] at h
            simp only [Bool.false_eq_true, if_false, Outcome.fresh.injEq] at h
            refine ⟨fs, t, wb, a, rfl, ht, rfl, rfl, h.1.symm, ?_⟩
            rw [← h.2]

theorem writesStep_iff (u : Bool) (p : ScanState × EntityInput) :
    writesStep u p = true ↔
      ∃ rows entry, runEntity u p.1.cache p.2 = .fresh rows (some entry) := by
  unfold writesStep
  rcases hE : runEntity u p.1.cache p.2 with _ | rows | ⟨rows, _ | entry⟩ | err <;> simp

/-- C5: any failure of one entity's external calls (discovery, download or
audit/extraction) is caught at entity granularity and recorded as a scan
error carrying that entity's category, application, reviewer and message;
the error list is exactly the failing steps' records, and the response list
is exactly the non-failing steps' rows, so no per-entity exception aborts
the batch. -/
theorem scan_errors_exactly_failing_entities (u : Bool) (init : CacheMap)
    (es : List EntityInput) :
    (runScan u init es).errors = (scanPre u (initState init) es).filterMap (stepFail u) ∧
    (runScan u init es).all_responses = (scanPre u (initState init) es).flatMap (stepRows u) ∧
    (∀ (c : CacheMap) (e : EntityInput) (err : ScanError),
      runEntity u c e = .failed err →
      err.category = e.category ∧ err.app_name = e.app_name ∧
        err.reviewer = e.reviewer_name ∧ err.folder_url = e.folder_url) := by
  refine ⟨?_, ?_, ?_⟩
  · rw [runScan, foldl_scanStep_errors]
    rfl
  · rw [runScan, foldl_scanStep_responses]
    rfl
  · intro c e err h
    obtain ⟨msg, rfl⟩ := runEntity_failed_shape u c e err h
    exact ⟨rfl, rfl, rfl, rfl⟩

theorem scan_errors_exactly_failing_entities_witness :
    (runScan true emptyCacheMap [eBad, eOne]).errors
        = (scanPre true (initState emptyCacheMap) [eBad, eOne]).filterMap (stepFail true) ∧
    ((mkScanError eBad "listFolders timeout").category = eBad.category ∧
      (mkScanError eBad "listFolders timeout").app_name = eBad.app_name ∧
      (mkScanError eBad "listFolders timeout").reviewer = eBad.reviewer_name ∧
      (mkScanError eBad "listFolders timeout").folder_url = eBad.folder_url) ∧
    (runScan true emptyCacheMap [eBad, eOne]).errors
        = [mkScanError eBad "listFolders timeout"] :=
  ⟨(scan_errors_exactly_failing_entities true emptyCacheMap [eBad, eOne]).1,
   (scan_errors_exactly_failing_entities true emptyCacheMap [eBad, eOne]).2.2
     emptyCacheMap eBad (mkScanError eBad "listFolders timeout") (by decide),
   by decide⟩

/-- C8: the backing cache file is rewritten at end of run iff some step of
the run wrote a cache entry; a step writes an entry iff its fresh extraction
yielded at least one row (and the written entry stores those non-empty rows);
and a run that sets no dirty flag — all hits, skips, failures or empty
extractions — leaves the persisted file unchanged. -/
theorem cache_persist_iff_entry_written (u : Bool) (init : CacheMap) (es : List EntityInput) :
    ((runScan u init es).cache_updated = true ↔
      ∃ p ∈ scanPre u (initState init) es,
        ∃ rows entry, runEntity u p.1.cache p.2 = .fresh rows (some entry)) ∧
    (∀ (c : CacheMap) (e : EntityInput) (rows : List EnrichedRow) (w : Option CacheEntry),
      runEntity u c e = .fresh rows w →
      ((w.isSome = true ↔ rows ≠ []) ∧
        ∀ entry, w = some entry → ∃ rs, entry.rows = some rs ∧ rs ≠ [])) ∧
    ((runScan u init es).cache_updated = false → persistedCache u init es = init) := by
  refine ⟨?_, ?_, ?_⟩
  · rw [runScan, foldl_scanStep_updated]
    simp only [initState, Bool.false_or, List.any_eq_true, writesStep_iff]
  · intro c e rows w h
    obtain ⟨fs, t, wb, a, hf, ht, hd, ha, hrows, hw⟩ := runEntity_fresh_shape u c e rows w h
    by_cases hemp : read_excel_rows wb e.reviewer_name t.name e.folder_url = []
    · constructor
      · rw [hw, if_pos (by simp [List.isEmpty_iff, hemp])]
        simp [hrows, hemp]
      · intro entry hentry
        rw [hw, if_pos (by simp [List.isEmpty_iff, hemp])] at hentry
        simp at hentry
    · constructor
      · rw [hw, if_neg (by simp [List.isEmpty_iff, hemp])]
        simp [hrows, hemp]
      · intro entry hentry
        rw [hw, if_neg (by simp [List.isEmpty_iff, hemp])] at hentry
        have he : entryOf t.lastModifiedDateTime a
            (read_excel_rows wb e.reviewer_name t.name e.folder_url) = entry := by
          injection hentry
        rw [← he]
        exact ⟨_, rfl, hemp⟩
  · intro h
    simp [persistedCache, h]

theorem cache_persist_iff_entry_written_witness :
    ((runScan true emptyCacheMap [eOne]).cache_updated = true ↔
      ∃ p ∈ scanPre true (initState emptyCacheMap) [eOne],
        ∃ rows entry, runEntity true p.1.cache p.2 = .fresh rows (some entry)) ∧
    persistedCache true emptyCacheMap [eEmpty] = emptyCacheMap :=
  ⟨(cache_persist_iff_entry_written true emptyCacheMap [eOne]).1,
   (cache_persist_iff_entry_written true emptyCacheMap [eEmpty]).2.2 (by decide)⟩

theorem perm_isEmpty_eq {α : Type} {l1 l2 : List α} (h : l1.Perm l2) :
    l1.isEmpty = l2.isEmpty := by
  have hl := h.length_eq
  cases l1 <;> cases l2 <;> simp_all

theorem perm_all_eq {α : Type} {l1 l2 : List α} (h : l1.Perm l2) (p : α → Bool) :
    l1.all p = l2.all p := by
  apply Bool.eq_iff_iff.mpr
  simp only [List.all_eq_true]
  exact ⟨fun H x hx => H x (h.mem_iff.mpr hx), fun H x hx => H x (h.mem_iff.mp hx)⟩

theorem perm_contains_eq {l1 l2 : List String} (h : l1.Perm l2) (x : String) :
    l1.contains x = l2.contains x := by
  apply Bool.eq_iff_iff.mpr
  rw [List.elem_iff, List.elem_iff]
  exact h.mem_iff

/-- C4 counterexample: two entity results that share the application name and
reviewer but live in different categories; swapping their order changes the
folder link stored for reviewer alice under `(catA, app1)`, because the
source-link lookup filters `df` by application and reviewer only and takes
the first row in processing order. -/
theorem aggregate_order_dependent_folder_url :
    aggregate manualW dfX1 ≠ aggregate manualW dfX2 := by
  intro h
  have h1 := congrFun h ("catA", "app1")
  have h2 := congrArg (fun o => Option.map (fun n => AggNode.reviewers n "alice") o) h1
  have h3 := congrArg (Option.map (Option.map (fun d => RevDetail.folder_url d))) h2
  exact absurd h3 (by decide)

theorem aggregate_apply (m : String → String × String) (df : List EnrichedRow)
    (c a : String) :
    aggregate m df (c, a) =
      if (reviewersIn df c a).isEmpty then Option.none
      else some
        { category := c
          app_name := a
          status_manual := (m (c ++ " > " ++ a)).1
          note_manual := (m (c ++ " > " ++ a)).2
          reviewers := fun r =>
            if (reviewersIn df c a).contains r then some (mkDetail df c a r)
            else Option.none
          total_users := (reviewersIn df c a).length
          completed_users := ((reviewersIn df c a).filter
            (fun r => missingOf (groupOf df c a r) == 0)).length } := rfl

/-- C4 (amended): aggregation is deterministic and order-independent
provided all rows sharing an `(application, reviewer)` pair carry the same
source link — which holds exactly when no two distinct entity results share
an `(application, reviewer)` pair, since within one entity the link is
constant; under that proviso any permutation of the rows (in particular any
permutation of whole entity results) yields an identical rollup map in every
field: totals, completed counts, per-reviewer flag sums, status text and
source link. -/
theorem aggregate_perm_invariant (m : String → String × String)
    (df1 df2 : List EnrichedRow) (hperm : df1.Perm df2)
    (hurl : ∀ x ∈ df1, ∀ y ∈ df1, x.app_name = y.app_name →
      x.base.reviewer = y.base.reviewer → x.base.folder_url = y.base.folder_url) :
    aggregate m df1 = aggregate m df2 := by
  funext p
  obtain ⟨c, a⟩ := p
  have hrevperm : (reviewersIn df1 c a).Perm (reviewersIn df2 c a) :=
    ((hperm.filter _).map _).dedup
  have hgroup : ∀ r, (groupOf df1 c a r).Perm (groupOf df2 c a r) :=
    fun r => hperm.filter _
  have hmiss : ∀ r, missingOf (groupOf df1 c a r) = missingOf (groupOf df2 c a r) :=
    fun r => ((hgroup r).filter _).length_eq
  have happr : ∀ r, apprOf (groupOf df1 c a r) = apprOf (groupOf df2 c a r) :=
    fun r => ((hgroup r).map _).sum_eq
  have hdeny : ∀ r, denyOf (groupOf df1 c a r) = denyOf (groupOf df2 c a r) :=
    fun r => ((hgroup r).map _).sum_eq
  have hchg : ∀ r, chgOf (groupOf df1 c a r) = chgOf (groupOf df2 c a r) :=
    fun r => ((hgroup r).map _).sum_eq
  have hcached : ∀ r, isCachedOf (groupOf df1 c a r) = isCachedOf (groupOf df2 c a r) :=
    fun r => perm_all_eq (hgroup r) _
  have hurl2 : ∀ r, folderUrlOf df1 a r = folderUrlOf df2 a r := by
    intro r
    unfold folderUrlOf
    have hp : (df1.filter (fun z => z.app_name == a && z.base.reviewer == r)).Perm
        (df2.filter (fun z => z.app_name == a && z.base.reviewer == r)) := hperm.filter _
    rcases h1 : df1.filter (fun z => z.app_name == a && z.base.reviewer == r)
      with _ | ⟨x, xs⟩
    · rw [h1] at hp
      rw [h1, hp.symm.eq_nil]
    · rcases h2 : df2.filter (fun z => z.app_name == a && z.base.reviewer == r)
        with _ | ⟨y, ys⟩
      · rw [h1, h2] at hp
        exact absurd hp.length_eq (by simp)
      · rw [h1, h2]
        have hx : x ∈ df1.filter (fun z => z.app_name == a && z.base.reviewer == r) := by
          rw [h1]; exact List.mem_cons_self _ _
        have hy2 : y ∈ df2.filter (fun z => z.app_name == a && z.base.reviewer == r) := by
          rw [h2]; exact List.mem_cons_self _ _
        have hy : y ∈ df1.filter (fun z => z.app_name == a && z.base.reviewer == r) :=
          hp.mem_iff.mpr hy2
        have hx2 := List.mem_filter.mp hx
        have hy3 := List.mem_filter.mp hy
        have hxa : x.app_name = a ∧ x.base.reviewer = r := by
          have hb := hx2.2
          simp only [Bool.and_eq_true, beq_iff_eq] at hb
          exact hb
        have hya : y.app_name = a ∧ y.base.reviewer = r := by
          have hb := hy3.2
          simp only [Bool.and_eq_true, beq_iff_eq] at hb
          exact hb
        exact hurl x hx2.1 y hy3.1 (hxa.1.trans hya.1.symm) (hxa.2.trans hya.2.symm)
  have hdetail : ∀ r, mkDetail df1 c a r = mkDetail df2 c a r := by
    intro r
    simp only [mkDetail]
    rw [hmiss r, happr r, hdeny r, hchg r, hcached r, hurl2 r]
  have hempty := perm_isEmpty_eq hrevperm
  rw [aggregate_apply, aggregate_apply]
  by_cases he : (reviewersIn df1 c a).isEmpty = true
  · rw [if_pos he, if_pos (hempty.symm.trans he)]
  · rw [if_neg he, if_neg (fun hcon => he (hempty.trans hcon))]
    refine congrArg some ?_
    refine AggNode.ext rfl rfl rfl rfl ?_ ?_ ?_
    · funext r
      show (if (reviewersIn df1 c a).contains r then some (mkDetail df1 c a r)
          else Option.none) =
        (if (reviewersIn df2 c a).contains r then some (mkDetail df2 c a r)
          else Option.none)
      rw [perm_contains_eq hrevperm r]
      by_cases hc : (reviewersIn df2 c a).contains r = true
      · rw [if_pos hc, if_pos hc, hdetail r]
      · rw [if_neg hc, if_neg hc]
    · show (reviewersIn df1 c a).length = (reviewersIn df2 c a).length
      exact hrevperm.length_eq
    · show ((reviewersIn df1 c a).filter
          (fun r => missingOf (groupOf df1 c a r) == 0)).length =
        ((reviewersIn df2 c a).filter
          (fun r => missingOf (groupOf df2 c a r) == 0)).length
      have hpred : ∀ r ∈ reviewersIn df2 c a,
          (missingOf (groupOf df1 c a r) == 0) = (missingOf (groupOf df2 c a r) == 0) :=
        fun r _ => by rw [hmiss r]
      calc ((reviewersIn df1 c a).filter
              (fun r => missingOf (groupOf df1 c a r) == 0)).length
          = ((reviewersIn df2 c a).filter
              (fun r => missingOf (groupOf df1 c a r) == 0)).length :=
            (hrevperm.filter _).length_eq
        _ = ((reviewersIn df2 c a).filter
              (fun r => missingOf (groupOf df2 c a r) == 0)).length := by
            rw [List.filter_congr hpred]

theorem aggregate_perm_invariant_witness :
    aggregate manualW dfP1 = aggregate manualW dfP2 :=
  aggregate_perm_invariant manualW dfP1 dfP2 (by decide) (by decide)
